import Mathlib

/-!
Shallow embedding of the contact-manager repository
(`task_01_address_book.py` and `task_02_assistant_bot.py`).

The two Python files contain near-duplicate class hierarchies; where they
differ (`Record.add_phone` duplicate check, `Record.edit_phone` ordering)
both variants are embedded, suffixed `1` (task_01) and `2` (task_02).
Python exceptions are modelled with `Except`; mutation that persists across
a raised exception is modelled by returning the mutated value together with
an optional error message.
-/

namespace ContactMgr

/-! ### Calendar arithmetic (`datetime.date`) -/

/-- Gregorian leap-year test, as `calendar`/`datetime` implement it. -/
def isLeap (y : Nat) : Bool :=
  (y % 4 == 0 && y % 100 != 0) || (y % 400 == 0)

/-- Number of days of month `m` (1-12) in year `y`. -/
def daysInMonth (y m : Nat) : Nat :=
  if m == 2 then (if isLeap y then 29 else 28)
  else if m == 4 || m == 6 || m == 9 || m == 11 then 30
  else 31

/-- A calendar date, as the `(year, month, day)` triple of `datetime.date`. -/
structure Date where
  year : Nat
  month : Nat
  day : Nat
deriving DecidableEq, Repr

/-- The constructor constraints of `datetime.date`: `MINYEAR = 1`,
`MAXYEAR = 9999`, month 1-12, day within the month. -/
def Date.valid (d : Date) : Bool :=
  1 ≤ d.year && d.year ≤ 9999 && 1 ≤ d.month && d.month ≤ 12 &&
  1 ≤ d.day && d.day ≤ daysInMonth d.year d.month

/-- Days in all years before year `y` (proleptic Gregorian). -/
def daysBeforeYear (y : Nat) : Nat :=
  365 * (y - 1) + (y - 1) / 4 - (y - 1) / 100 + (y - 1) / 400

/-- Days in the months of year `y` strictly before month `m`. -/
def daysBeforeMonth (y m : Nat) : Nat :=
  (List.range (m - 1)).foldl (fun acc i => acc + daysInMonth y (i + 1)) 0

/-- `date.toordinal()`: day count with 0001-01-01 ↦ 1. -/
def toOrdinal (d : Date) : Nat :=
  daysBeforeYear d.year + daysBeforeMonth d.year d.month + d.day

/-- `date.weekday()`: Monday = 0 … Sunday = 6 (0001-01-01 was a Monday). -/
def weekday (d : Date) : Nat :=
  (toOrdinal d + 6) % 7

/-- Python `date` comparison (chronological; lexicographic on the triple). -/
def Date.before (a b : Date) : Bool :=
  a.year < b.year ||
    (a.year == b.year &&
      (a.month < b.month || (a.month == b.month && a.day < b.day)))

/-- The day after `d` (for valid dates, `d + timedelta(days=1)`). -/
def nextDay (d : Date) : Date :=
  if d.day < daysInMonth d.year d.month then ⟨d.year, d.month, d.day + 1⟩
  else if d.month < 12 then ⟨d.year, d.month + 1, 1⟩
  else ⟨d.year + 1, 1, 1⟩

/-- `d + timedelta(days=n)` for valid `d`. -/
def addDays (d : Date) : Nat → Date
  | 0 => d
  | n + 1 => nextDay (addDays d n)

/-- `d.replace(year=y)`: revalidates and raises `ValueError` when the
month/day does not exist in year `y` (Feb 29 in a non-leap year). -/
def replaceYear (d : Date) (y : Nat) : Except String Date :=
  let d2 : Date := ⟨y, d.month, d.day⟩
  if d2.valid then .ok d2 else .error "day is out of range for month"

/-! ### Digit strings, `strftime` / `strptime` for `"%d.%m.%Y"` -/

/-- The character for digit value `n` (`n < 10`). -/
def digitChar (n : Nat) : Char := Char.ofNat (48 + n)

/-- Two-digit zero-padded decimal, as `%d` / `%m` format. -/
def toDigits2 (n : Nat) : List Char := [digitChar (n / 10), digitChar (n % 10)]

/-- Four-digit zero-padded decimal, as `%Y` format. -/
def toDigits4 (n : Nat) : List Char :=
  [digitChar (n / 1000), digitChar (n / 100 % 10), digitChar (n / 10 % 10),
   digitChar (n % 10)]

/-- `date.strftime("%d.%m.%Y")`. -/
def formatDate (d : Date) : String :=
  String.mk (toDigits2 d.day ++ '.' :: toDigits2 d.month ++ '.' :: toDigits4 d.year)

/-- Decimal value of a digit-character string (most significant first). -/
def digitsToNat (cs : List Char) : Nat :=
  cs.foldl (fun acc c => acc * 10 + (c.toNat - 48)) 0

/-- Split a character list on `'.'` (the literal separators of the
`"%d.%m.%Y"` pattern). -/
def splitOnDot : List Char → List (List Char)
  | [] => [[]]
  | c :: rest =>
    if c == '.' then [] :: splitOnDot rest
    else
      match splitOnDot rest with
      | [] => [[c]]
      | g :: gs => (c :: g) :: gs

/-- `datetime.strptime(value, "%d.%m.%Y").date()`: day and month are one or
two digits, the year exactly four digits, and the triple must form a real
calendar date; any failure raises `ValueError`. -/
def parseDate (value : String) : Except String Date :=
  match splitOnDot value.data with
  | [ds, ms, ys] =>
    if (1 ≤ ds.length && ds.length ≤ 2 && ds.all Char.isDigit &&
        1 ≤ ms.length && ms.length ≤ 2 && ms.all Char.isDigit &&
        ys.length == 4 && ys.all Char.isDigit) then
      let d : Date := ⟨digitsToNat ys, digitsToNat ms, digitsToNat ds⟩
      if d.valid then .ok d else .error "Invalid date format. Use DD.MM.YYYY."
    else .error "Invalid date format. Use DD.MM.YYYY."
  | _ => .error "Invalid date format. Use DD.MM.YYYY."

/-! ### `Phone`, `Birthday`, `Record` -/

/-- `Phone._is_valid`: `re.fullmatch(r"\d{10}", value)` — exactly ten
decimal-digit characters. -/
def phoneValid (s : String) : Bool :=
  s.length == 10 && s.data.all Char.isDigit

/-- The `Birthday` field: the original text (`self.value`) together with the
parsed date (`self.date`). -/
structure Birthday where
  value : String
  date : Date
deriving DecidableEq, Repr

/-- `Birthday.__init__`: parse, or raise `ValueError`. -/
def mkBirthday (value : String) : Except String Birthday :=
  match parseDate value with
  | .ok d => .ok ⟨value, d⟩
  | .error e => .error e

/-- A `Record`: name, ordered phone list (each `Phone` is its `value`
string), optional birthday. -/
structure Record where
  name : String
  phones : List String
  birthday : Option Birthday
deriving DecidableEq, Repr

/-- `Record.__init__(name)`. -/
def mkRecord (name : String) : Record := ⟨name, [], none⟩

/-- `Record.find_phone` as a membership test: `find_phone` returns the
first `Phone` object whose `value` equals the argument, or `None`. -/
def findPhone (r : Record) (p : String) : Bool := r.phones.contains p

/-- task_01 `Record.add_phone`: validate, then append. -/
def addPhone1 (r : Record) (p : String) : Except String Record :=
  if phoneValid p then .ok { r with phones := r.phones ++ [p] }
  else .error "Phone number must be 10 digits."

/-- task_02 `Record.add_phone`: duplicate check first, then validate and
append. -/
def addPhone2 (r : Record) (p : String) : Except String Record :=
  if findPhone r p then .error ("Phone " ++ p ++ " already exists.")
  else if phoneValid p then .ok { r with phones := r.phones ++ [p] }
  else .error "Phone number must be 10 digits."

/-- `Record.remove_phone` (identical in both files): remove the first
occurrence when present, otherwise do nothing. -/
def removePhone (r : Record) (p : String) : Record :=
  { r with phones := r.phones.erase p }

/-- task_01 `Record.edit_phone`: when `old` is found, first remove it, then
`add_phone(new)`. A `ValueError` raised by `add_phone` propagates, but the
removal has already mutated the record; the pair returns the record state
after the call together with the propagated error, if any. -/
def editPhone1 (r : Record) (old nw : String) : Record × Option String :=
  if findPhone r old then
    let r1 := { r with phones := r.phones.erase old }
    match addPhone1 r1 nw with
    | .ok r2 => (r2, none)
    | .error e => (r1, some e)
  else (r, none)

/-- task_02 `Record.edit_phone`: when `old` is found, first `add_phone(new)`
(which may raise before any mutation), then remove `old`. -/
def editPhone2 (r : Record) (old nw : String) : Record × Option String :=
  if findPhone r old then
    match addPhone2 r nw with
    | .ok r1 => ({ r1 with phones := r1.phones.erase old }, none)
    | .error e => (r, some e)
  else (r, none)

/-- `Record.add_birthday`: `Birthday(birthday_str)` may raise, in which case
the record is unchanged; otherwise the new birthday overwrites any old one. -/
def addBirthdayRec (r : Record) (s : String) : Except String Record :=
  match mkBirthday s with
  | .ok b => .ok { r with birthday := some b }
  | .error e => .error e

/-! ### `AddressBook` (a `UserDict` keyed by `record.name.value`) -/

/-- An `AddressBook`: insertion-ordered mapping, modelled as the list of
records in dict iteration order. -/
abbrev AddressBook := List Record

/-- `AddressBook.add_record`: dict assignment `data[name] = record` —
replace in place when the key exists, else append. -/
def addRecord : AddressBook → Record → AddressBook
  | [], r => [r]
  | x :: xs, r => if x.name == r.name then r :: xs else x :: addRecord xs r

/-- `AddressBook.find`: `data.get(name)`. -/
def findRecord (book : AddressBook) (name : String) : Option Record :=
  book.find? (fun r => r.name == name)

/-- `AddressBook.delete`: remove the entry when present. -/
def deleteRecord : AddressBook → String → AddressBook
  | [], _ => []
  | x :: xs, n => if x.name == n then xs else x :: deleteRecord xs n

/-! ### `AddressBook.get_upcoming_birthdays` -/

/-- The body of the `get_upcoming_birthdays` loop for one record: `none`
when the record is skipped, `some (name, congratulation_date_str)` when it
is emitted, `Except.error` when a `replace` raises. -/
def upcomingEntry (today : Date) (r : Record) : Except String (Option (String × String)) :=
  match r.birthday with
  | none => .ok none
  | some b =>
    match replaceYear b.date today.year with
    | .error e => .error e
    | .ok bty0 =>
      match (if bty0.before today then replaceYear b.date (today.year + 1) else .ok bty0) with
      | .error e => .error e
      | .ok bty =>
        let delta : Int := (toOrdinal bty : Int) - (toOrdinal today : Int)
        if 0 ≤ delta ∧ delta ≤ 7 then
          let congrat :=
            if weekday bty == 5 then addDays bty 2
            else if weekday bty == 6 then addDays bty 1
            else bty
          .ok (some (r.name, formatDate congrat))
        else .ok none

/-- `AddressBook.get_upcoming_birthdays`, with `today` passed explicitly
(the source reads `date.today()`): iterate the records in order, collect
the emitted pairs; an exception raised mid-loop propagates. -/
def getUpcomingBirthdays (book : AddressBook) (today : Date) :
    Except String (List (String × String)) :=
  match book with
  | [] => .ok []
  | r :: rs =>
    match upcomingEntry today r with
    | .error e => .error e
    | .ok none => getUpcomingBirthdays rs today
    | .ok (some p) =>
      match getUpcomingBirthdays rs today with
      | .error e => .error e
      | .ok l => .ok (p :: l)

/-! ### Bot logic (task_02): `input_error`, handlers, dispatch -/

/-- The exception kinds a handler body can raise, per the `input_error`
decorator: `KeyError`, `ValueError` (with its message), `IndexError`. -/
inductive BErr where
  | keyError
  | valueError (msg : String)
  | indexError
deriving DecidableEq, Repr

/-- The message of Python's `ValueError` raised by unpacking
`a, b, *_ = args` when `args` is too short. -/
def unpackMsg (want got : Nat) : String :=
  "not enough values to unpack (expected at least " ++ toString want ++
    ", got " ++ toString got ++ ")"

/-- The `input_error` decorator: run the body; catch `KeyError`,
`ValueError`, `IndexError` and return a message string instead. -/
def inputError (x : Except BErr String) : String :=
  match x with
  | .ok s => s
  | .error .keyError => "Enter user name."
  | .error (.valueError m) => m
  | .error .indexError => "Enter a command and necessary arguments."

/-- `add_contact(args, book)` body: unpack `name, phone, *_`; find or create
the record (a fresh record is inserted into the book before any phone
validation); `add_phone` may then raise, leaving the insertion in place.
Returns the body's result (or raised error) and the book state after the
call. -/
def addContact (args : List String) (book : AddressBook) :
    Except BErr String × AddressBook :=
  match args with
  | name :: phone :: _ =>
    let (r0, book0, msg) :=
      match findRecord book name with
      | some r => (r, book, "Contact updated.")
      | none => (mkRecord name, addRecord book (mkRecord name), "Contact added.")
    if phone ≠ "" then
      match addPhone2 r0 phone with
      | .ok r1 => (.ok msg, addRecord book0 r1)
      | .error e => (.error (.valueError e), book0)
    else (.ok msg, book0)
  | _ => (.error (.valueError (unpackMsg 2 args.length)), book)

/-- `change_contact(args, book)` body. -/
def changeContact (args : List String) (book : AddressBook) :
    Except BErr String × AddressBook :=
  match args with
  | name :: old :: nw :: _ =>
    match findRecord book name with
    | none => (.ok "Contact not found.", book)
    | some r =>
      match editPhone2 r old nw with
      | (r1, none) => (.ok ("Phone number updated for " ++ name ++ "."), addRecord book r1)
      | (r1, some e) => (.error (.valueError e), addRecord book r1)
  | _ => (.error (.valueError (unpackMsg 3 args.length)), book)

/-- `show_phone(args, book)` body. -/
def showPhone (args : List String) (book : AddressBook) :
    Except BErr String × AddressBook :=
  match args with
  | name :: _ =>
    match findRecord book name with
    | none => (.ok "Contact not found.", book)
    | some r =>
      if r.phones.isEmpty then (.ok (name ++ " has no phone numbers."), book)
      else (.ok (name ++ ": " ++ String.intercalate "; " r.phones), book)
  | [] => (.error (.valueError (unpackMsg 1 0)), book)

/-- `add_birthday(args, book)` body. -/
def addBirthday (args : List String) (book : AddressBook) :
    Except BErr String × AddressBook :=
  match args with
  | name :: bs :: _ =>
    match findRecord book name with
    | none => (.ok ("Contact " ++ name ++ " not found. Add the contact first."), book)
    | some r =>
      match addBirthdayRec r bs with
      | .ok r1 => (.ok ("Birthday added for " ++ name ++ "."), addRecord book r1)
      | .error e => (.error (.valueError e), book)
  | _ => (.error (.valueError (unpackMsg 2 args.length)), book)

/-- `show_birthday(args, book)` body. -/
def showBirthday (args : List String) (book : AddressBook) :
    Except BErr String × AddressBook :=
  match args with
  | name :: _ =>
    match findRecord book name with
    | none => (.ok ("Contact " ++ name ++ " not found."), book)
    | some r =>
      match r.birthday with
      | some b => (.ok (name ++ "\x27s birthday is " ++ b.value), book)
      | none => (.ok ("No birthday set for " ++ name ++ "."), book)
  | [] => (.error (.valueError (unpackMsg 1 0)), book)

/-- `Record.__str__`. -/
def renderRecord (r : Record) : String :=
  "Contact name: " ++ r.name ++ ", phones: " ++
    (if r.phones.isEmpty then "None" else String.intercalate "; " r.phones) ++
    ", birthday: " ++ (match r.birthday with | some b => b.value | none => "None")

/-- `show_all(book)` (not wrapped by `input_error`; it raises nothing). -/
def showAll (book : AddressBook) : String :=
  if book.isEmpty then "No contacts available."
  else String.intercalate "\n" (book.map renderRecord)

/-- `birthdays(args, book)` body: `get_upcoming_birthdays` may raise a
`ValueError` (Feb 29 `replace`), which the body does not catch. -/
def birthdays (today : Date) (book : AddressBook) :
    Except BErr String × AddressBook :=
  match getUpcomingBirthdays book today with
  | .error e => (.error (.valueError e), book)
  | .ok [] => (.ok "No upcoming birthdays this week.", book)
  | .ok l =>
    (.ok (String.intercalate "\n"
      (l.map (fun p => p.1 ++ " should be congratulated on " ++ p.2))), book)

/-- One iteration of the `main` read-dispatch loop after `parse_input`:
either the loop continues with an output line and the new book state, or
the bot prints the farewell and halts. -/
inductive StepResult where
  | cont (out : String) (book : AddressBook)
  | halt (out : String)
deriving DecidableEq, Repr

/-- The dispatch table of `main`: every handler invocation goes through
`input_error`, so a raised `KeyError` / `ValueError` / `IndexError` becomes
the printed message and the loop continues. -/
def dispatch (today : Date) (cmd : String) (args : List String)
    (book : AddressBook) : StepResult :=
  if cmd == "close" || cmd == "exit" then .halt "Good bye!"
  else if cmd == "hello" then .cont "How can I help you?" book
  else if cmd == "add" then
    .cont (inputError (addContact args book).1) (addContact args book).2
  else if cmd == "change" then
    .cont (inputError (changeContact args book).1) (changeContact args book).2
  else if cmd == "phone" then
    .cont (inputError (showPhone args book).1) (showPhone args book).2
  else if cmd == "all" then
    .cont (showAll book) book
  else if cmd == "add-birthday" then
    .cont (inputError (addBirthday args book).1) (addBirthday args book).2
  else if cmd == "show-birthday" then
    .cont (inputError (showBirthday args book).1) (showBirthday args book).2
  else if cmd == "birthdays" then
    .cont (inputError (birthdays today book).1) (birthdays today book).2
  else
    .cont "Invalid command. Choose from: hello, add, change, phone, all, add-birthday, show-birthday, birthdays, close, exit." book

/-! ### Spec-side definitions

These follow the words of the specification (not the code) and are used to
compare the code's behaviour against the spec's description. -/

/-- From the spec: "this year's occurrence of the birthday's month/day; if
that date has already passed relative to today, roll to next year's
occurrence". -/
def specOcc (today bd : Date) : Date :=
  let o1 : Date := ⟨today.year, bd.month, bd.day⟩
  if o1.before today then ⟨today.year + 1, bd.month, bd.day⟩ else o1

/-- From the spec: the occurrence "lies within the inclusive window
[today, today+7 days]". -/
def inWindow (today o : Date) : Bool :=
  decide (0 ≤ (toOrdinal o : Int) - (toOrdinal today : Int)) &&
  decide ((toOrdinal o : Int) - (toOrdinal today : Int) ≤ 7)

/-- From the spec: a record should be reported exactly when it has a
birthday whose (possibly rolled) occurrence falls in the window. -/
def qualifies (today : Date) (r : Record) : Bool :=
  match r.birthday with
  | none => false
  | some b => inWindow today (specOcc today b.date)

/-- From the spec: "if the occurrence is a Saturday, shift forward 2 days;
if Sunday, 1 day; otherwise use the occurrence date unchanged". -/
def specCongrats (o : Date) : Date :=
  if weekday o = 5 then addDays o 2
  else if weekday o = 6 then addDays o 1
  else o

/-! ### Sequences of phone operations (for the phone-format invariant) -/

/-- The phone-mutating operations of a `Record`. -/
inductive PhoneOp where
  | add (p : String)
  | remove (p : String)
  | edit (old nw : String)
deriving DecidableEq, Repr

/-- Run one task_01 operation; a raised `ValueError` leaves the record in
the state it had when the exception propagated. -/
def applyOp1 (r : Record) : PhoneOp → Record
  | .add p => match addPhone1 r p with | .ok r1 => r1 | .error _ => r
  | .remove p => removePhone r p
  | .edit old nw => (editPhone1 r old nw).1

/-- Run one task_02 operation, with the same convention. -/
def applyOp2 (r : Record) : PhoneOp → Record
  | .add p => match addPhone2 r p with | .ok r1 => r1 | .error _ => r
  | .remove p => removePhone r p
  | .edit old nw => (editPhone2 r old nw).1

/-- Run a sequence of task_01 operations. -/
def applyOps1 (r : Record) (ops : List PhoneOp) : Record := ops.foldl applyOp1 r

/-- Run a sequence of task_02 operations. -/
def applyOps2 (r : Record) (ops : List PhoneOp) : Record := ops.foldl applyOp2 r

/-- Every phone stored in the record matches the ten-digit format. -/
def phonesValid (r : Record) : Bool := r.phones.all phoneValid

/-! ### Helper lemmas -/

theorem all_phoneValid_erase (l : List String) (a : String)
    (h : l.all phoneValid = true) : (l.erase a).all phoneValid = true := by
  simp only [List.all_eq_true] at h ⊢
  exact fun x hx => h x (List.mem_of_mem_erase hx)

theorem findRecord_addRecord (book : AddressBook) (r : Record) :
    findRecord (addRecord book r) r.name = some r := by
  induction book with
  | nil => simp [addRecord, findRecord]
  | cons x xs ih =>
    by_cases hx : x.name == r.name
    · simp [addRecord, findRecord, hx]
    · simp only [addRecord, if_neg hx, findRecord]
      rw [List.find?_cons_of_neg (p := fun (q : Record) => q.name == r.name) _ hx]
      exact ih

theorem findRecord_name (book : AddressBook) (name : String) (r : Record)
    (h : findRecord book name = some r) : r.name = name := by
  have := List.find?_some h
  simpa using this

/-! ### Claim theorems: phone operations -/

/-- C1 (counterexample): in the task_02 variant, `add_phone` on a ten-digit
numeric string fails when that number is already on the record, so the
valid-input half of the claim does not hold for every record state. -/
theorem c1_counterexample :
    phoneValid "1234567890" = true ∧
    addPhone2 ⟨"Alice", ["1234567890"], none⟩ "1234567890" =
      .error "Phone 1234567890 already exists." := by
  constructor <;> rfl

/-- C1 (amended): for every record state, the task_01 `add_phone` appends
every ten-digit numeric string and fails with the `ValueError` message on
every other string; the task_02 `add_phone` behaves the same way provided
the number is not already on the record, and fails with a duplicate-number
`ValueError` (leaving the list unchanged) when it is. -/
theorem c1_add_phone_validated (r : Record) (p : String) :
    (phoneValid p = true →
      addPhone1 r p = .ok { r with phones := r.phones ++ [p] }) ∧
    (phoneValid p = false →
      addPhone1 r p = .error "Phone number must be 10 digits.") ∧
    (phoneValid p = true → findPhone r p = false →
      addPhone2 r p = .ok { r with phones := r.phones ++ [p] }) ∧
    (phoneValid p = false → findPhone r p = false →
      addPhone2 r p = .error "Phone number must be 10 digits.") ∧
    (findPhone r p = true →
      addPhone2 r p = .error ("Phone " ++ p ++ " already exists.")) := by
  refine ⟨fun h => ?_, fun h => ?_, fun h hf => ?_, fun h hf => ?_, fun hf => ?_⟩ <;>
    simp [addPhone1, addPhone2, *]

theorem c1_add_phone_validated_witness :
    addPhone1 (mkRecord "Alice") "0123456789" = .ok ⟨"Alice", ["0123456789"], none⟩ ∧
    addPhone1 (mkRecord "Alice") "12345" = .error "Phone number must be 10 digits." ∧
    addPhone2 (mkRecord "Alice") "0123456789" = .ok ⟨"Alice", ["0123456789"], none⟩ ∧
    addPhone2 ⟨"Alice", ["0123456789"], none⟩ "0123456789" =
      .error "Phone 0123456789 already exists." :=
  ⟨(c1_add_phone_validated (mkRecord "Alice") "0123456789").1 (by rfl),
   (c1_add_phone_validated (mkRecord "Alice") "12345").2.1 (by rfl),
   (c1_add_phone_validated (mkRecord "Alice") "0123456789").2.2.1 (by rfl) (by rfl),
   (c1_add_phone_validated ⟨"Alice", ["0123456789"], none⟩ "0123456789").2.2.2.2 (by rfl)⟩

/-- C5: in both variants, `edit_phone` with an `old` number that is not on
the record leaves the record unchanged and reports no error, whatever the
`new` argument is. -/
theorem c5_edit_phone_absent (r : Record) (old nw : String)
    (h : findPhone r old = false) :
    editPhone1 r old nw = (r, none) ∧ editPhone2 r old nw = (r, none) := by
  simp [editPhone1, editPhone2, h]

theorem c5_edit_phone_absent_witness :
    editPhone1 ⟨"Bob", ["1111111111"], none⟩ "2222222222" "oops" =
      (⟨"Bob", ["1111111111"], none⟩, none) ∧
    editPhone2 ⟨"Bob", ["1111111111"], none⟩ "2222222222" "oops" =
      (⟨"Bob", ["1111111111"], none⟩, none) :=
  c5_edit_phone_absent ⟨"Bob", ["1111111111"], none⟩ "2222222222" "oops" (by rfl)

/-- C9 (counterexample): in the task_01 variant, `edit_phone` removes `old`
before validating `new`; with `old` on the record and a malformed `new` the
call raises, yet the phone list has changed — `old` is gone. -/
theorem c9_counterexample :
    findPhone ⟨"Ann", ["1234567890"], none⟩ "1234567890" = true ∧
    editPhone1 ⟨"Ann", ["1234567890"], none⟩ "1234567890" "12345" =
      (⟨"Ann", [], none⟩, some "Phone number must be 10 digits.") := by
  constructor <;> rfl

/-- C9 (amended): the append-then-remove order and failure atomicity hold
in the task_02 variant — when `old` is on the record, a failing
`edit_phone` (invalid or duplicate `new`) leaves the list unchanged, a
successful one appends `new` and then removes `old`, and the call fails
exactly when `new` is already present or malformed. In the task_01 variant
the order is remove-then-append, so a validation failure of `new` leaves
the record with `old` already removed. -/
theorem c9_edit_phone_ordering (r : Record) (old nw : String)
    (h : findPhone r old = true) :
    ((editPhone2 r old nw).2.isSome → (editPhone2 r old nw).1 = r) ∧
    ((editPhone2 r old nw).2 = none →
      (editPhone2 r old nw).1.phones = (r.phones ++ [nw]).erase old) ∧
    ((editPhone2 r old nw).2.isSome ↔ (findPhone r nw = true ∨ phoneValid nw = false)) ∧
    (findPhone r nw = false → phoneValid nw = false →
      editPhone1 r old nw =
        ({ r with phones := r.phones.erase old }, some "Phone number must be 10 digits.")) := by
  refine ⟨?_, ?_, ?_, ?_⟩
  · intro hs
    simp only [editPhone2, h, if_true] at hs ⊢
    rcases hp : addPhone2 r nw with e | r1 <;> simp [hp] at hs ⊢
  · intro hn
    simp only [editPhone2, h, if_true] at hn ⊢
    rcases hp : addPhone2 r nw with e | r1 <;> simp only [hp] at hn ⊢
    · simp at hn
    · simp only [addPhone2] at hp
      by_cases hd : findPhone r nw
      · simp [hd] at hp
      · by_cases hv : phoneValid nw
        · simp only [hd, hv, if_true, if_false, Bool.false_eq_true] at hp
          cases hp; rfl
        · simp [hd, hv] at hp
  · simp only [editPhone2, h, if_true]
    rcases hp : addPhone2 r nw with e | r1 <;>
      simp only [addPhone2] at hp <;>
      by_cases hd : findPhone r nw <;>
      by_cases hv : phoneValid nw <;>
      simp_all
  · intro hd hv
    simp [editPhone1, addPhone1, h, hv]

theorem c9_edit_phone_ordering_witness :
    (editPhone2 ⟨"Ann", ["1234567890"], none⟩ "1234567890" "12345").1 =
      ⟨"Ann", ["1234567890"], none⟩ :=
  (c9_edit_phone_ordering ⟨"Ann", ["1234567890"], none⟩ "1234567890" "12345" (by rfl)).1
    (by rfl)

/-- C4: starting from a fresh record, any sequence of `add_phone`,
`remove_phone`, `edit_phone` operations — successful or failing — leaves
only ten-digit numeric strings in the phone list, in both variants. -/
theorem c4_phones_invariant (name : String) (ops : List PhoneOp) :
    phonesValid (applyOps1 (mkRecord name) ops) = true ∧
    phonesValid (applyOps2 (mkRecord name) ops) = true := by
  have step1 : ∀ (r : Record) (op : PhoneOp),
      phonesValid r = true → phonesValid (applyOp1 r op) = true := by
    intro r op h
    cases op with
    | add p =>
      by_cases hv : phoneValid p
      · simp only [applyOp1, addPhone1, hv, if_true]
        simpa [phonesValid] using And.intro (by simpa [phonesValid] using h) hv
      · simpa [applyOp1, addPhone1, hv] using h
    | remove p =>
      simpa [applyOp1, removePhone, phonesValid] using
        all_phoneValid_erase r.phones p (by simpa [phonesValid] using h)
    | edit old nw =>
      simp only [applyOp1, editPhone1]
      by_cases hf : findPhone r old
      · have he : (r.phones.erase old).all phoneValid = true :=
          all_phoneValid_erase r.phones old (by simpa [phonesValid] using h)
        by_cases hv : phoneValid nw
        · simp only [hf, if_true, addPhone1, hv]
          simpa [phonesValid] using And.intro he hv
        · simp only [hf, if_true, addPhone1, hv]
          simpa [phonesValid] using he
      · simpa [hf] using h
  have step2 : ∀ (r : Record) (op : PhoneOp),
      phonesValid r = true → phonesValid (applyOp2 r op) = true := by
    intro r op h
    cases op with
    | add p =>
      by_cases hd : findPhone r p
      · simpa [applyOp2, addPhone2, hd] using h
      · by_cases hv : phoneValid p
        · simp only [applyOp2, addPhone2, hd, hv, if_true, Bool.false_eq_true, if_false]
          simpa [phonesValid] using And.intro (by simpa [phonesValid] using h) hv
        · simpa [applyOp2, addPhone2, hd, hv] using h
    | remove p =>
      simpa [applyOp2, removePhone, phonesValid] using
        all_phoneValid_erase r.phones p (by simpa [phonesValid] using h)
    | edit old nw =>
      simp only [applyOp2, editPhone2]
      by_cases hf : findPhone r old
      · rcases hp : addPhone2 r nw with e | r1
        · simpa [hf, hp] using h
        · simp only [hf, if_true, hp]
          simp only [addPhone2] at hp
          by_cases hd : findPhone r nw
          · simp [hd] at hp
          · by_cases hv : phoneValid nw
            · simp only [hd, hv, if_true, Bool.false_eq_true, if_false] at hp
              cases hp
              simpa [phonesValid] using all_phoneValid_erase (r.phones ++ [nw]) old
                (by simpa [phonesValid] using And.intro (by simpa [phonesValid] using h) hv)
            · simp [hd, hv] at hp
      · simpa [hf] using h
  have main : ∀ (ops : List PhoneOp) (r : Record), phonesValid r = true →
      phonesValid (ops.foldl applyOp1 r) = true ∧
      phonesValid (ops.foldl applyOp2 r) = true := by
    intro ops
    induction ops with
    | nil => exact fun r h => ⟨h, h⟩
    | cons op rest ih =>
      intro r h
      exact ⟨(ih (applyOp1 r op) (step1 r op h)).1, (ih (applyOp2 r op) (step2 r op h)).2⟩
  exact main ops (mkRecord name) (by rfl)

/-! ### Format/parse round trip -/

theorem digitChar_toNat (n : Nat) (h : n < 10) : (digitChar n).toNat = 48 + n := by
  interval_cases n <;> rfl

theorem digitChar_isDigit (n : Nat) (h : n < 10) : (digitChar n).isDigit = true := by
  interval_cases n <;> rfl

theorem digitChar_ne_dot (n : Nat) (h : n < 10) : digitChar n ≠ '.' := by
  interval_cases n <;> decide

theorem digitsToNat_toDigits2 (n : Nat) (h : n < 100) :
    digitsToNat (toDigits2 n) = n := by
  have h1 : n / 10 < 10 := by omega
  have h2 : n % 10 < 10 := by omega
  simp only [digitsToNat, toDigits2, List.foldl_cons, List.foldl_nil,
    digitChar_toNat _ h1, digitChar_toNat _ h2]
  omega

theorem digitsToNat_toDigits4 (n : Nat) (h : n < 10000) :
    digitsToNat (toDigits4 n) = n := by
  have h1 : n / 1000 < 10 := by omega
  have h2 : n / 100 % 10 < 10 := by omega
  have h3 : n / 10 % 10 < 10 := by omega
  have h4 : n % 10 < 10 := by omega
  simp only [digitsToNat, toDigits4, List.foldl_cons, List.foldl_nil,
    digitChar_toNat _ h1, digitChar_toNat _ h2, digitChar_toNat _ h3,
    digitChar_toNat _ h4]
  omega

theorem toDigits2_all_digits (n : Nat) (h : n < 100) :
    (toDigits2 n).all Char.isDigit = true := by
  simp [toDigits2, digitChar_isDigit _ (by omega : n / 10 < 10),
    digitChar_isDigit _ (by omega : n % 10 < 10)]

theorem toDigits4_all_digits (n : Nat) (h : n < 10000) :
    (toDigits4 n).all Char.isDigit = true := by
  simp [toDigits4, digitChar_isDigit _ (by omega : n / 1000 < 10),
    digitChar_isDigit _ (by omega : n / 100 % 10 < 10),
    digitChar_isDigit _ (by omega : n / 10 % 10 < 10),
    digitChar_isDigit _ (by omega : n % 10 < 10)]

theorem toDigits2_no_dot (n : Nat) (h : n < 100) :
    ∀ c ∈ toDigits2 n, (c == '.') = false := by
  simp only [toDigits2, List.mem_cons, List.not_mem_nil, or_false, forall_eq_or_imp,
    forall_eq, beq_eq_false_iff_ne, ne_eq]
  exact ⟨digitChar_ne_dot _ (by omega), digitChar_ne_dot _ (by omega)⟩

theorem splitOnDot_no_dot (xs : List Char) (h : ∀ c ∈ xs, (c == '.') = false) :
    splitOnDot xs = [xs] := by
  induction xs with
  | nil => rfl
  | cons c rest ih =>
    have hc := h c (by simp)
    have hrest := ih (fun x hx => h x (by simp [hx]))
    simp [splitOnDot, hc, hrest]

theorem splitOnDot_append (xs rest : List Char)
    (h : ∀ c ∈ xs, (c == '.') = false) :
    splitOnDot (xs ++ '.' :: rest) = xs :: splitOnDot rest := by
  induction xs with
  | nil => simp [splitOnDot]
  | cons c cs ih =>
    have hc := h c (by simp)
    have := ih (fun x hx => h x (by simp [hx]))
    simp [splitOnDot, hc, this]

theorem daysInMonth_pos_le (y m : Nat) : 28 ≤ daysInMonth y m ∧ daysInMonth y m ≤ 31 := by
  unfold daysInMonth
  split
  · split <;> omega
  · split <;> omega

theorem toDigits4_no_dot (n : Nat) (h : n < 10000) :
    ∀ c ∈ toDigits4 n, (c == '.') = false := by
  simp only [toDigits4, List.mem_cons, List.not_mem_nil, or_false, forall_eq_or_imp,
    forall_eq, beq_eq_false_iff_ne, ne_eq]
  exact ⟨digitChar_ne_dot _ (by omega), digitChar_ne_dot _ (by omega),
    digitChar_ne_dot _ (by omega), digitChar_ne_dot _ (by omega)⟩

/-- Formatting a valid date with `"%d.%m.%Y"` and parsing the result with
`strptime("%d.%m.%Y")` gives back the same date. -/
theorem parseDate_formatDate (d : Date) (h : d.valid = true) :
    parseDate (formatDate d) = .ok d := by
  obtain ⟨y, m, dy⟩ := d
  have hv0 : Date.valid ⟨y, m, dy⟩ = true := h
  have hb := daysInMonth_pos_le y m
  simp only [Date.valid, Bool.and_eq_true, decide_eq_true_eq] at h
  have hdayB : dy < 100 := by omega
  have hmonB : m < 100 := by omega
  have hyrB : y < 10000 := by omega
  have hdata : (formatDate ⟨y, m, dy⟩).data =
      toDigits2 dy ++ '.' :: (toDigits2 m ++ '.' :: toDigits4 y) := rfl
  have hsplit : splitOnDot (formatDate ⟨y, m, dy⟩).data =
      [toDigits2 dy, toDigits2 m, toDigits4 y] := by
    rw [hdata, splitOnDot_append _ _ (toDigits2_no_dot _ hdayB),
      splitOnDot_append _ _ (toDigits2_no_dot _ hmonB),
      splitOnDot_no_dot _ (toDigits4_no_dot _ hyrB)]
  have e1 : digitsToNat (toDigits2 dy) = dy := digitsToNat_toDigits2 _ hdayB
  have e2 : digitsToNat (toDigits2 m) = m := digitsToNat_toDigits2 _ hmonB
  have e3 : digitsToNat (toDigits4 y) = y := digitsToNat_toDigits4 _ hyrB
  have l1 : (toDigits2 dy).length = 2 := rfl
  have l2 : (toDigits2 m).length = 2 := rfl
  have l3 : (toDigits4 y).length = 4 := rfl
  simp only [parseDate, hsplit, l1, l2, l3, toDigits2_all_digits _ hdayB,
    toDigits2_all_digits _ hmonB, toDigits4_all_digits _ hyrB, e1, e2, e3]
  simp [hv0]

/-! ### Claim theorems: birthday round trip, add-contact atomicity, dispatcher -/

/-- C6: for every real calendar date rendered in strict `DD.MM.YYYY` form,
`add-birthday` on an existing contact succeeds and a later `show-birthday`
reproduces the exact input text. -/
theorem c6_birthday_round_trip (d : Date) (name : String) (book : AddressBook)
    (r : Record) (hv : d.valid = true) (hf : findRecord book name = some r) :
    addBirthday [name, formatDate d] book =
      (.ok ("Birthday added for " ++ name ++ "."),
        addRecord book { r with birthday := some ⟨formatDate d, d⟩ }) ∧
    showBirthday [name] (addRecord book { r with birthday := some ⟨formatDate d, d⟩ }) =
      (.ok (name ++ "\x27s birthday is " ++ formatDate d),
        addRecord book { r with birthday := some ⟨formatDate d, d⟩ }) := by
  have hname : r.name = name := findRecord_name book name r hf
  have hadd : addBirthdayRec r (formatDate d) =
      .ok { r with birthday := some ⟨formatDate d, d⟩ } := by
    simp [addBirthdayRec, mkBirthday, parseDate_formatDate d hv]
  have hfind2 : findRecord (addRecord book { r with birthday := some ⟨formatDate d, d⟩ }) name =
      some { r with birthday := some ⟨formatDate d, d⟩ } := by
    have h := findRecord_addRecord book { r with birthday := some ⟨formatDate d, d⟩ }
    simpa [hname] using h
  constructor
  · simp [addBirthday, hf, hadd]
  · simp [showBirthday, hfind2]

theorem c6_birthday_round_trip_witness :
    addBirthday ["Jane", formatDate ⟨1995, 7, 14⟩] [mkRecord "Jane"] =
      (.ok ("Birthday added for " ++ "Jane" ++ "."),
        [⟨"Jane", [], some ⟨formatDate ⟨1995, 7, 14⟩, ⟨1995, 7, 14⟩⟩⟩]) ∧
    showBirthday ["Jane"] [⟨"Jane", [], some ⟨formatDate ⟨1995, 7, 14⟩, ⟨1995, 7, 14⟩⟩⟩] =
      (.ok ("Jane" ++ "\x27s birthday is " ++ formatDate ⟨1995, 7, 14⟩),
        [⟨"Jane", [], some ⟨formatDate ⟨1995, 7, 14⟩, ⟨1995, 7, 14⟩⟩⟩]) :=
  c6_birthday_round_trip ⟨1995, 7, 14⟩ "Jane" [mkRecord "Jane"] (mkRecord "Jane")
    (by decide) (by rfl)

/-- C10: when `name` is not in the book and `phone` is malformed (and
nonempty, as whitespace tokens always are), `add_contact` inserts an
empty-phone record for `name` into the book before `add_phone` raises; the
call reports the validation error, yet the book now contains the entry. -/
theorem c10_add_contact_nonatomic (name phone : String) (rest : List String)
    (book : AddressBook) (hf : findRecord book name = none)
    (hp : phoneValid phone = false) (hne : phone ≠ "") :
    addContact (name :: phone :: rest) book =
      (.error (.valueError "Phone number must be 10 digits."),
        addRecord book (mkRecord name)) ∧
    findRecord (addRecord book (mkRecord name)) name = some (mkRecord name) := by
  constructor
  · simp [addContact, hf, hne, addPhone2, findPhone, mkRecord, hp]
  · exact findRecord_addRecord book (mkRecord name)

theorem c10_add_contact_nonatomic_witness :
    addContact ["Kate", "12345"] [] =
      (.error (.valueError "Phone number must be 10 digits."), [mkRecord "Kate"]) ∧
    findRecord [mkRecord "Kate"] "Kate" = some (mkRecord "Kate") :=
  c10_add_contact_nonatomic "Kate" "12345" [] [] (by rfl) (by rfl) (by decide)

/-- C8: the dispatcher wraps every handler in `input_error`, so for every
command, argument list and book state the loop step yields a printed line
and continues (it halts only on `close`/`exit`); and every caught exception
kind (`KeyError`, `ValueError`, `IndexError`) is rendered as its one-line
message. -/
theorem c8_handler_errors_contained (today : Date) (cmd : String)
    (args : List String) (book : AddressBook) :
    (cmd ≠ "close" → cmd ≠ "exit" →
      ∃ out b, dispatch today cmd args book = .cont out b) ∧
    inputError (.error .keyError) = "Enter user name." ∧
    (∀ m, inputError (.error (.valueError m)) = m) ∧
    inputError (.error .indexError) = "Enter a command and necessary arguments." := by
  refine ⟨fun h1 h2 => ?_, rfl, fun m => rfl, rfl⟩
  have hc : (cmd == "close" || cmd == "exit") = false := by
    simp [h1, h2]
  simp only [dispatch, hc, Bool.false_eq_true, if_false]
  repeat' split
  all_goals exact ⟨_, _, rfl⟩

theorem c8_handler_errors_contained_witness :
    (∃ out b, dispatch ⟨2024, 7, 15⟩ "add" [] [] = .cont out b) ∧
    inputError (.error .keyError) = "Enter user name." ∧
    (∀ m, inputError (.error (.valueError m)) = m) ∧
    inputError (.error .indexError) = "Enter a command and necessary arguments." :=
  have h := c8_handler_errors_contained ⟨2024, 7, 15⟩ "add" [] []
  ⟨h.1 (by decide) (by decide), h.2⟩

/-! ### Lemmas about `get_upcoming_birthdays` -/

theorem replaceYear_error (d : Date) (y : Nat) (e : String)
    (h : replaceYear d y = .error e) : e = "day is out of range for month" := by
  simp only [replaceYear] at h
  split at h
  · exact Except.noConfusion h
  · exact (Except.error.inj h).symm

theorem replaceYear_ok (d : Date) (y : Nat) (d2 : Date)
    (h : replaceYear d y = .ok d2) :
    d2 = ⟨y, d.month, d.day⟩ ∧ d2.valid = true := by
  simp only [replaceYear] at h
  split at h
  · exact ⟨(Except.ok.inj h).symm, by have := (Except.ok.inj h); subst this; assumption⟩
  · exact Except.noConfusion h

theorem upcomingEntry_error_msg (today : Date) (r : Record) (e : String)
    (h : upcomingEntry today r = .error e) : e = "day is out of range for month" := by
  rcases hbd : r.birthday with _ | b
  · simp only [upcomingEntry, hbd] at h
    exact Except.noConfusion h
  · simp only [upcomingEntry, hbd] at h
    rcases h1 : replaceYear b.date today.year with e1 | bty0 <;> simp only [h1] at h
    · rw [← Except.error.inj h]
      exact replaceYear_error _ _ _ h1
    · rcases h2 : (if bty0.before today then replaceYear b.date (today.year + 1)
          else .ok bty0) with e2 | bty <;> simp only [h2] at h
      · rw [← Except.error.inj h]
        by_cases hbf : bty0.before today
        · rw [if_pos hbf] at h2
          exact replaceYear_error _ _ _ h2
        · rw [if_neg hbf] at h2
          exact Except.noConfusion h2
      · split at h <;> exact Except.noConfusion h

/-- When the loop body returns for a record, the emitted pair is exactly
the spec-described one, and it is emitted exactly when the record
qualifies per the spec. -/
theorem upcomingEntry_ok_spec (today : Date) (r : Record) (o : Option (String × String))
    (h : upcomingEntry today r = .ok o) :
    o.isSome = qualifies today r ∧
    ∀ p, o = some p → ∃ b, r.birthday = some b ∧
      p = (r.name, formatDate (specCongrats (specOcc today b.date))) := by
  rcases hbd : r.birthday with _ | b
  · simp only [upcomingEntry, hbd] at h
    cases h
    simp [qualifies, hbd]
  · simp only [upcomingEntry, hbd] at h
    rcases h1 : replaceYear b.date today.year with e1 | bty0 <;> simp only [h1] at h
    · exact Except.noConfusion h
    · obtain ⟨hb0, _⟩ := replaceYear_ok _ _ _ h1
      have hocc : ∀ bty, (if bty0.before today then replaceYear b.date (today.year + 1)
          else .ok bty0) = .ok bty → bty = specOcc today b.date := by
        intro bty hroll
        by_cases hbf : bty0.before today
        · rw [if_pos hbf] at hroll
          obtain ⟨hb1, _⟩ := replaceYear_ok _ _ _ hroll
          simp only [specOcc, ← hb0, hbf, if_true]
          exact hb1
        · rw [if_neg hbf] at hroll
          have hbb : bty = bty0 := (Except.ok.inj hroll).symm
          simp only [specOcc, ← hb0, hbf, Bool.false_eq_true, if_false]
          exact hbb
      rcases h2 : (if bty0.before today then replaceYear b.date (today.year + 1)
          else .ok bty0) with e2 | bty <;> simp only [h2] at h
      · exact Except.noConfusion h
      · have hbty := hocc bty h2
        subst hbty
        split at h
        · rename_i hwin
          cases h
          constructor
          · simp [qualifies, hbd, inWindow, hwin.1, hwin.2]
          · intro p hp
            cases hp
            refine ⟨b, rfl, ?_⟩
            by_cases h5 : weekday (specOcc today b.date) = 5
            · simp [specCongrats, h5]
            · by_cases h6 : weekday (specOcc today b.date) = 6 <;>
                simp [specCongrats, h5, h6]
        · rename_i hwin
          cases h
          constructor
          · have hiw : inWindow today (specOcc today b.date) = false := by
              rw [inWindow]
              rcases not_and_or.mp hwin with hA | hB
              · simp [hA]
              · simp [hB]
            simp [qualifies, hbd, hiw]
          · intro p hp; exact Option.noConfusion hp

/-- A successful call processed every record without an exception, and
each record's emitted pair (if any) is in the result. -/
theorem getUB_ok_entry (book : AddressBook) (today : Date) (l : List (String × String))
    (h : getUpcomingBirthdays book today = .ok l) :
    ∀ r ∈ book, ∃ o, upcomingEntry today r = .ok o ∧ ∀ p, o = some p → p ∈ l := by
  induction book generalizing l with
  | nil => intro r hr; exact absurd hr (List.not_mem_nil r)
  | cons x xs ih =>
    intro r hr
    simp only [getUpcomingBirthdays] at h
    rcases he : upcomingEntry today x with e | o <;> simp only [he] at h
    · exact Except.noConfusion h
    · rcases o with _ | p
      · rcases List.mem_cons.mp hr with rfl | hr2
        · exact ⟨none, he, fun p hp => Option.noConfusion hp⟩
        · exact ih l h r hr2
      · rcases hrest : getUpcomingBirthdays xs today with e2 | l2 <;>
          simp only [hrest] at h
        · exact Except.noConfusion h
        · have hl : p :: l2 = l := Except.ok.inj h
          subst hl
          rcases List.mem_cons.mp hr with rfl | hr2
          · exact ⟨some p, he, fun q hq => by cases hq; exact List.mem_cons_self _ _⟩
          · obtain ⟨o2, ho2, hmem⟩ := ih l2 hrest r hr2
            exact ⟨o2, ho2, fun q hq => List.mem_cons_of_mem _ (hmem q hq)⟩

/-- Every pair of a successful result was emitted by some record of the
book. -/
theorem getUB_mem_entry (book : AddressBook) (today : Date) (l : List (String × String))
    (h : getUpcomingBirthdays book today = .ok l) :
    ∀ p ∈ l, ∃ r, r ∈ book ∧ upcomingEntry today r = .ok (some p) := by
  induction book generalizing l with
  | nil =>
    simp only [getUpcomingBirthdays] at h
    cases h
    intro p hp
    exact absurd hp (List.not_mem_nil p)
  | cons x xs ih =>
    intro p hp
    simp only [getUpcomingBirthdays] at h
    rcases he : upcomingEntry today x with e | o <;> simp only [he] at h
    · exact Except.noConfusion h
    · rcases o with _ | q
      · obtain ⟨r, hr, hro⟩ := ih l h p hp
        exact ⟨r, List.mem_cons_of_mem _ hr, hro⟩
      · rcases hrest : getUpcomingBirthdays xs today with e2 | l2 <;>
          simp only [hrest] at h
        · exact Except.noConfusion h
        · have hl : q :: l2 = l := Except.ok.inj h
          subst hl
          rcases List.mem_cons.mp hp with rfl | hp2
          · exact ⟨x, List.mem_cons_self _ _, he⟩
          · obtain ⟨r, hr, hro⟩ := ih l2 hrest p hp2
            exact ⟨r, List.mem_cons_of_mem _ hr, hro⟩

/-! ### Claim theorems: upcoming birthdays -/

/-- C7: any book holding a record with a February 29 birthday makes
`get_upcoming_birthdays` raise (the `replace(year=...)` step fails) when
"today" lies in a non-leap year, instead of returning a result. -/
theorem c7_feb29_nonleap_raises (book : AddressBook) (today : Date) (r : Record)
    (b : Birthday) (hr : r ∈ book) (hb : r.birthday = some b)
    (hm : b.date.month = 2) (hd : b.date.day = 29)
    (hl : isLeap today.year = false) :
    getUpcomingBirthdays book today = .error "day is out of range for month" := by
  have hval : Date.valid ⟨today.year, b.date.month, b.date.day⟩ = false := by
    simp [Date.valid, hm, hd, daysInMonth, hl]
  have hrep : replaceYear b.date today.year = .error "day is out of range for month" := by
    simp [replaceYear, hval]
  have hent : upcomingEntry today r = .error "day is out of range for month" := by
    simp only [upcomingEntry, hb, hrep]
  induction book with
  | nil => exact absurd hr (List.not_mem_nil r)
  | cons x xs ih =>
    simp only [getUpcomingBirthdays]
    rcases List.mem_cons.mp hr with rfl | hr2
    · simp [hent]
    · have hxs := ih hr2
      rcases he : upcomingEntry today x with e | o
      · rw [upcomingEntry_error_msg today x e he]
      · rcases o with _ | p
        · exact hxs
        · simp [hxs]

theorem c7_feb29_nonleap_raises_witness :
    getUpcomingBirthdays [⟨"Lina", [], some ⟨"29.02.1996", ⟨1996, 2, 29⟩⟩⟩]
      ⟨2025, 2, 25⟩ = .error "day is out of range for month" :=
  c7_feb29_nonleap_raises _ _ ⟨"Lina", [], some ⟨"29.02.1996", ⟨1996, 2, 29⟩⟩⟩
    ⟨"29.02.1996", ⟨1996, 2, 29⟩⟩ (by simp) (by rfl) (by rfl) (by rfl) (by rfl)

/-- C2 (counterexample): the claimed equivalence is not universal — in a
book holding a February 29 birthday, with "today" in a non-leap year, a
second record whose next occurrence lies in the window is emitted nowhere
because the whole call raises instead of returning. -/
theorem c2_counterexample :
    qualifies ⟨2025, 2, 25⟩ ⟨"Olha", [], some ⟨"01.03.1990", ⟨1990, 3, 1⟩⟩⟩ = true ∧
    (⟨"Olha", [], some ⟨"01.03.1990", ⟨1990, 3, 1⟩⟩⟩ : Record) ∈
      ([⟨"Dmytro", [], some ⟨"29.02.1996", ⟨1996, 2, 29⟩⟩⟩,
        ⟨"Olha", [], some ⟨"01.03.1990", ⟨1990, 3, 1⟩⟩⟩] : AddressBook) ∧
    getUpcomingBirthdays
      [⟨"Dmytro", [], some ⟨"29.02.1996", ⟨1996, 2, 29⟩⟩⟩,
       ⟨"Olha", [], some ⟨"01.03.1990", ⟨1990, 3, 1⟩⟩⟩] ⟨2025, 2, 25⟩ =
      .error "day is out of range for month" :=
  ⟨by rfl, by simp, by rfl⟩

/-- C2 (amended): whenever `get_upcoming_birthdays` returns a result (no
record trips the February 29 `replace` failure), a record with a unique
name is represented in the output if and only if its next birthday
occurrence — this year's, rolled to next year when already past — lies in
the inclusive window [today, today+7]. -/
theorem c2_upcoming_iff (book : AddressBook) (today : Date)
    (l : List (String × String)) (hnd : (book.map Record.name).Nodup)
    (h : getUpcomingBirthdays book today = .ok l)
    (r : Record) (hr : r ∈ book) :
    qualifies today r = true ↔ ∃ s, (r.name, s) ∈ l := by
  constructor
  · intro hq
    obtain ⟨o, ho, hmem⟩ := getUB_ok_entry book today l h r hr
    obtain ⟨hiff, hshape⟩ := upcomingEntry_ok_spec today r o ho
    rcases o with _ | p
    · rw [hq] at hiff
      exact absurd hiff.symm (by simp)
    · obtain ⟨b, hb, hpe⟩ := hshape p rfl
      have hmem2 : p ∈ l := hmem p rfl
      refine ⟨formatDate (specCongrats (specOcc today b.date)), ?_⟩
      rw [← hpe]
      exact hmem2
  · rintro ⟨s, hs⟩
    obtain ⟨r2, hr2, he2⟩ := getUB_mem_entry book today l h (r.name, s) hs
    obtain ⟨hiff2, hshape2⟩ := upcomingEntry_ok_spec today r2 _ he2
    obtain ⟨b2, hb2, hp2⟩ := hshape2 _ rfl
    have hname : r2.name = r.name := by
      have := congrArg Prod.fst hp2
      simpa using this.symm
    have heq : r2 = r := List.inj_on_of_nodup_map hnd hr2 hr (by rw [hname])
    rw [← heq, ← hiff2]
    rfl

theorem c2_upcoming_iff_witness :
    (qualifies ⟨2024, 7, 15⟩ ⟨"Mark", [], some ⟨"19.07.1995", ⟨1995, 7, 19⟩⟩⟩ = true ↔
      ∃ s, ("Mark", s) ∈ [("Mark", "19.07.2024")]) :=
  c2_upcoming_iff [⟨"Mark", [], some ⟨"19.07.1995", ⟨1995, 7, 19⟩⟩⟩] ⟨2024, 7, 15⟩
    [("Mark", "19.07.2024")] (by simp) (by rfl)
    ⟨"Mark", [], some ⟨"19.07.1995", ⟨1995, 7, 19⟩⟩⟩ (by simp)

/-- C3: every pair the call reports carries the congratulation date of the
spec's weekend rule — the computed occurrence shifted by 2 days from a
Saturday, 1 day from a Sunday, and unchanged otherwise. -/
theorem c3_weekend_shift (book : AddressBook) (today : Date)
    (l : List (String × String)) (h : getUpcomingBirthdays book today = .ok l)
    (p : String × String) (hp : p ∈ l) :
    ∃ r, r ∈ book ∧ ∃ b, r.birthday = some b ∧
      p = (r.name, formatDate (specCongrats (specOcc today b.date))) := by
  obtain ⟨r, hr, he⟩ := getUB_mem_entry book today l h p hp
  obtain ⟨_, hshape⟩ := upcomingEntry_ok_spec today r _ he
  obtain ⟨b, hb, hpe⟩ := hshape p rfl
  exact ⟨r, hr, b, hb, hpe⟩

theorem c3_weekend_shift_witness :
    ∃ r, r ∈ ([⟨"John", [], some ⟨"20.07.1990", ⟨1990, 7, 20⟩⟩⟩] : AddressBook) ∧
      ∃ b, r.birthday = some b ∧
        (("John", "22.07.2024") : String × String) =
          (r.name, formatDate (specCongrats (specOcc ⟨2024, 7, 15⟩ b.date))) :=
  c3_weekend_shift [⟨"John", [], some ⟨"20.07.1990", ⟨1990, 7, 20⟩⟩⟩] ⟨2024, 7, 15⟩
    [("John", "22.07.2024")] (by rfl) ("John", "22.07.2024") (by simp)

end ContactMgr
